import Mathlib

/-!
Verification development for the ruva core runtime (shallow embedding).

Each Rust function relevant to the claims is translated into a Lean
definition; machine integers (`i64`) are modeled as `Nat`/`Int` with
explicit range hypotheses where the source relies on values staying
inside 63 bits, and effectful inputs (the wall clock, the global id
allocator, channel sends) are lifted into explicit parameters or into
operation traces.
-/

/- ### ID allocator (src/ruva-core/src/snowflake.rs) -/

/-- Embedding of `NumericalUniqueIdGenerator::get_snowflake`:
`timestamp << 22 | (datacenter_id << 17) | (machine_id << 12) | seq_num`.
Under the range preconditions used by the claims every intermediate value
stays below `2 ^ 63`, so the `i64` arithmetic of the source never wraps and
`Nat` is a faithful carrier. -/
def get_snowflake (datacenter_id machine_id : Nat) (seq_num timestamp : Nat) : Nat :=
  timestamp <<< 22 ||| datacenter_id <<< 17 ||| machine_id <<< 12 ||| seq_num

/-- Embedding of one successful iteration of the retry loop in
`NumericalUniqueIdGenerator::generate` (the iteration whose
`compare_exchange` succeeds).  `current` is the packed atomic word that was
loaded, `timestamp` is the wall-clock reading `current_time_in_milli` of
that iteration, and `raced` is the value returned by `race_next_milli` in
the sequence-overflow branch (its loop only returns a reading strictly
greater than `timestamp`, which the claims take as a hypothesis).
Returns the packed word stored by the CAS together with the id returned to
the caller. -/
def generate_step (datacenter_id machine_id : Nat) (current timestamp raced : Nat) :
    Nat × Nat :=
  let last_ts := current >>> 12
  let last_seq := current &&& 4095
  let p : Nat × Nat :=
    if last_ts = timestamp then
      let next_seq := (last_seq + 1) &&& 4095
      if next_seq = 0 then (raced, 0) else (timestamp, next_seq)
    else (timestamp, 0)
  (p.1 <<< 12 ||| p.2, get_snowflake datacenter_id machine_id p.2 p.1)

/- ### SnowFlake serde (src/ruva-core/src/snowflake.rs, Serialize/Deserialize) -/

/-- Embedding of the `SnowFlake` newtype over `i64`. -/
structure SnowFlake where
  val : Int
deriving DecidableEq

/-- Little-endian decimal digits of `n`, with an explicit structural fuel
(64 digits suffice for every value a `u64`/`i64` decimal rendering can
have). -/
def toDecAux : Nat → Nat → List Nat
  | 0, _ => []
  | fuel + 1, n => if n = 0 then [] else n % 10 :: toDecAux fuel (n / 10)

/-- Decimal digit list of `n` as produced by Rust `to_string` on the
absolute value: the rendering of `0` is the single digit `0`. -/
def to_string_digits (n : Nat) : List Nat :=
  if n = 0 then [0] else toDecAux 64 n

/-- Numeric value of a little-endian decimal digit list. -/
def ofDecDigits : List Nat → Nat
  | [] => 0
  | d :: ds => d + 10 * ofDecDigits ds

/-- The inputs the `SnowflakeVisitor` can receive from
`deserialize_any`: a signed integer (`visit_i64`), an unsigned integer
(`visit_u64`), or a decimal string token, modeled as an optional minus
sign plus its little-endian digit list. -/
inductive SerdeInput where
  | int (v : Int)
  | uint (n : Nat)
  | str (neg : Bool) (digits : List Nat)
deriving DecidableEq

/-- Embedding of `SnowflakeVisitor::visit_u64`: accepts exactly the values
strictly below `i64::MAX = 2 ^ 63 - 1`. -/
def visit_u64 (n : Nat) : Option SnowFlake :=
  if n < 2 ^ 63 - 1 then some ⟨(n : Int)⟩ else none

/-- Embedding of `SnowflakeVisitor::visit_i64`. -/
def visit_i64 (v : Int) : Option SnowFlake :=
  some ⟨v⟩

/-- Embedding of `id.parse::<u64>()` on the string model: fails on a minus
sign, an empty token, a non-digit character, or a value past `u64::MAX`. -/
def parse_u64 (neg : Bool) (digits : List Nat) : Option Nat :=
  if neg then none
  else if digits = [] then none
  else if digits.all (fun d => decide (d < 10)) = false then none
  else if ofDecDigits digits < 2 ^ 64 then some (ofDecDigits digits) else none

/-- Embedding of `Deserialize for SnowFlake` (the visitor dispatch). -/
def SnowFlake.deserialize (x : SerdeInput) : Option SnowFlake :=
  match x with
  | SerdeInput.int v => visit_i64 v
  | SerdeInput.uint n => visit_u64 n
  | SerdeInput.str neg ds =>
    match parse_u64 neg ds with
    | some n => visit_u64 n
    | none => none

/-- Embedding of `Serialize for SnowFlake`: the decimal string of the inner
`i64` (`self.0.to_string()`), i.e. a minus sign exactly when the value is
negative, followed by the digits of its absolute value. -/
def SnowFlake.serialize (s : SnowFlake) : SerdeInput :=
  SerdeInput.str (decide (s.val < 0)) (to_string_digits s.val.natAbs)

/- ### Helper lemmas about the bit-level arithmetic -/

/-- Disjoint bitwise-or is addition: the source packs fields with
`<<` and `|`; this rephrases core `Nat.mul_add_lt_is_or`. -/
theorem lor_eq_add_pow (k a b : Nat) (hb : b < 2 ^ k) :
    (2 ^ k * a) ||| b = 2 ^ k * a + b :=
  (Nat.mul_add_lt_is_or hb a).symm

theorem shiftLeft12_lor_eq (ts seq : Nat) (hseq : seq < 4096) :
    ts <<< 12 ||| seq = 4096 * ts + seq := by
  rw [Nat.shiftLeft_eq, Nat.mul_comm ts]
  have h := lor_eq_add_pow 12 ts seq (by norm_num at hseq ⊢; omega)
  omega

/-- The packed-word layout `(ts << 12) | seq` with `seq < 4096` determines
both fields. -/
theorem pack_inj (ts seq ts2 seq2 : Nat) (h1 : seq < 4096) (h2 : seq2 < 4096)
    (heq : ts <<< 12 ||| seq = ts2 <<< 12 ||| seq2) : ts = ts2 ∧ seq = seq2 := by
  rw [shiftLeft12_lor_eq ts seq h1, shiftLeft12_lor_eq ts2 seq2 h2] at heq
  omega

/-- Closed sum form of `get_snowflake` under the field-width
preconditions. -/
theorem get_snowflake_eq_sum (dc mach seq ts : Nat)
    (hdc : dc < 32) (hmach : mach < 32) (hseq : seq < 4096) :
    get_snowflake dc mach seq ts = ts * 2 ^ 22 + dc * 2 ^ 17 + mach * 2 ^ 12 + seq := by
  unfold get_snowflake
  rw [Nat.shiftLeft_eq, Nat.shiftLeft_eq, Nat.shiftLeft_eq]
  have h1 : ts * 2 ^ 22 ||| dc * 2 ^ 17 = ts * 2 ^ 22 + dc * 2 ^ 17 := by
    rw [Nat.mul_comm ts]
    have := lor_eq_add_pow 22 ts (dc * 2 ^ 17) (by norm_num; omega)
    omega
  have e2 : ts * 2 ^ 22 + dc * 2 ^ 17 = 2 ^ 17 * (32 * ts + dc) := by ring
  have h2 : ts * 2 ^ 22 + dc * 2 ^ 17 ||| mach * 2 ^ 12
      = ts * 2 ^ 22 + dc * 2 ^ 17 + mach * 2 ^ 12 := by
    rw [e2]
    have := lor_eq_add_pow 17 (32 * ts + dc) (mach * 2 ^ 12) (by norm_num; omega)
    omega
  have e3 : ts * 2 ^ 22 + dc * 2 ^ 17 + mach * 2 ^ 12
      = 2 ^ 12 * (1024 * ts + 32 * dc + mach) := by ring
  have h3 : ts * 2 ^ 22 + dc * 2 ^ 17 + mach * 2 ^ 12 ||| seq
      = ts * 2 ^ 22 + dc * 2 ^ 17 + mach * 2 ^ 12 + seq := by
    rw [e3]
    have := lor_eq_add_pow 12 (1024 * ts + 32 * dc + mach) seq (by norm_num; omega)
    omega
  rw [h1, h2, h3]

/- ### Decimal digit round-trip lemmas -/

theorem ofDecDigits_toDecAux (fuel n : Nat) (h : n < 10 ^ fuel) :
    ofDecDigits (toDecAux fuel n) = n := by
  induction fuel generalizing n with
  | zero =>
    simp only [pow_zero, Nat.lt_one_iff] at h
    subst h
    rfl
  | succ fuel ih =>
    by_cases hn : n = 0
    · subst hn; simp [toDecAux, ofDecDigits]
    · rw [toDecAux, if_neg hn]
      rw [ofDecDigits, ih (n / 10) (by rw [pow_succ] at h; omega)]
      omega

theorem toDecAux_all_lt (fuel n : Nat) :
    (toDecAux fuel n).all (fun d => decide (d < 10)) = true := by
  induction fuel generalizing n with
  | zero => rfl
  | succ fuel ih =>
    rw [toDecAux]
    by_cases hn : n = 0
    · simp [hn]
    · rw [if_neg hn, List.all_cons, ih (n / 10), Bool.and_true]
      simp [Nat.mod_lt n (by omega : 0 < 10)]

theorem to_string_digits_ne_nil (n : Nat) : to_string_digits n ≠ [] := by
  unfold to_string_digits
  by_cases hn : n = 0
  · simp [hn]
  · rw [if_neg hn]
    rw [toDecAux, if_neg hn]
    simp

theorem to_string_digits_all_lt (n : Nat) :
    (to_string_digits n).all (fun d => decide (d < 10)) = true := by
  unfold to_string_digits
  by_cases hn : n = 0
  · simp [hn]
  · rw [if_neg hn]; exact toDecAux_all_lt 64 n

theorem ofDecDigits_to_string_digits (n : Nat) (h : n < 10 ^ 64) :
    ofDecDigits (to_string_digits n) = n := by
  unfold to_string_digits
  by_cases hn : n = 0
  · simp [hn, ofDecDigits]
  · rw [if_neg hn]; exact ofDecDigits_toDecAux 64 n h

/- ### Outbox record (src/ruva-core/src/outbox.rs) -/

/-- The `chrono::DateTime<Utc>` type is modeled as milliseconds since the
Unix epoch; its `Default` value is the Unix epoch itself. -/
def dateTimeDefault : Int := 0

/-- Embedding of the `OutBox` row type. -/
structure OutBox where
  id : Int
  aggregate_id : String
  aggregate_name : String
  topic : String
  state : String
  processed : Bool
  create_dt : Int
  trace_id : String
deriving DecidableEq

/-- Embedding of `OutBox::new`.  The source obtains `id` from the global
lazily-initialized allocator (`*SnowFlake::generate()`); that effect is
lifted into the `freshId` parameter.  `create_dt` is `Default::default()`,
not a clock reading: the constructor takes no clock input at all. -/
def OutBox.new (freshId : Int)
    (aggregate_id aggregate_name topic state trace_id : String) : OutBox :=
  { id := freshId
    aggregate_id := aggregate_id
    aggregate_name := aggregate_name
    topic := topic
    state := state
    processed := false
    create_dt := dateTimeDefault
    trace_id := trace_id }

/- ### Events (src/ruva-core/src/message.rs) -/

/-- Embedding of the `EventMetadata` struct. -/
structure EventMetadata where
  aggregate_id : String
  aggregate_name : String
  topic : String
deriving DecidableEq

/-- Embedding of `type_name.split("::").last().unwrap()` over the
character list of the type name, scanning left to right and restarting the
current segment after each `"::"` separator. -/
def lastSegAux : List Char → List Char → List Char
  | [], acc => acc.reverse
  | ':' :: ':' :: rest, _ => lastSegAux rest []
  | c :: rest, acc => lastSegAux rest (c :: acc)

/-- Last `"::"`-separated segment of a type name. -/
def lastSegment (s : String) : String :=
  ⟨lastSegAux s.data []⟩

/-- Embedding of a `TEvent` implementor: the trait's provided (default)
method bodies are the structure's default field values, and a type that
overrides a method corresponds to a value built with that field set
explicitly.  `type_name` stands for `std::any::type_name::<Self>()` and
`tag` is an arbitrary payload distinguishing event values. -/
structure TEventImpl where
  type_name : String
  state : String := ""
  tag : Nat := 0
  externally_notifiable : Bool := false
  internally_notifiable : Bool := false
  metadata : EventMetadata :=
    { aggregate_id := ""
      aggregate_name := ""
      topic := lastSegment type_name }
deriving DecidableEq

/-- An event type that overrides none of the provided `TEvent` methods. -/
def defaultEvent (type_name state : String) : TEventImpl :=
  { type_name := type_name, state := state }

/-- Embedding of `TEvent::outbox`: builds an `OutBox` from the event's
metadata and serialized state.  The fresh id drawn inside `OutBox::new`
and the ambient opentelemetry trace id are explicit parameters. -/
def TEventImpl.outbox (e : TEventImpl) (freshId : Int) (trace_id : String) : OutBox :=
  OutBox.new freshId e.metadata.aggregate_id e.metadata.aggregate_name
    e.metadata.topic e.state trace_id

/- ### Error taxonomy (ruva-core responses; variants as used by the
dispatcher, the command handler and the sqlx adapter) -/

/-- Embedding of `BaseError`, the base error enum every application error
converts to and from (`StopSentinel`, `StopSentinelWithEvent`, `NotFound`,
`ServiceError`, `DatabaseError`). -/
inductive BaseError where
  | stopSentinel
  | stopSentinelWithEvent (e : TEventImpl)
  | notFound
  | serviceError
  | databaseError (msg : String)
deriving DecidableEq

/- ### Dispatcher (src/ruva-core/src/bus_components/messagebus.rs) -/

/-- An event handler: given the event, it returns the events it pushed to
the shared context queue during its execution together with its outcome
(`none` is `Ok`, `some err` is the application error converted to
`BaseError`). -/
def MHandler : Type := TEventImpl → List TEventImpl × Option BaseError

/-- Embedding of `EventHandlers`: a sequential (`Sync`) or fan-out
(`Async`) handler group. -/
inductive EventHandlers where
  | Sync (hs : List MHandler)
  | Async (hs : List MHandler)

/-- The topic-to-group registration map (`TEventHandler`), as an
association list. -/
def Registry : Type := List (String × EventHandlers)

/-- Map lookup `event_handler.get(&msg.metadata().topic)`. -/
def lookupTopic (reg : Registry) (topic : String) : Option EventHandlers :=
  match reg with
  | [] => none
  | (t, g) :: rest => if t = topic then some g else lookupTopic rest topic

/-- Embedding of the `EventHandlers::Sync` loop of `handle_event`: run the
handlers in registration order; a handler's pushes land on the queue, an
`Ok` or an ordinary error continues with the next handler (the error is
only logged), a `StopSentinel` breaks, and a `StopSentinelWithEvent`
pushes its payload to the back of the queue and breaks.  Returns the final
queue and the number of handlers that were invoked. -/
def runSync : List MHandler → TEventImpl → List TEventImpl → List TEventImpl × Nat
  | [], _, q => (q, 0)
  | h :: rest, msg, q =>
    let r := h msg
    let q2 := q ++ r.1
    match r.2 with
    | none =>
      let p := runSync rest msg q2
      (p.1, p.2 + 1)
    | some BaseError.stopSentinel => (q2, 1)
    | some (BaseError.stopSentinelWithEvent e) => (q2 ++ [e], 1)
    | some _ =>
      let p := runSync rest msg q2
      (p.1, p.2 + 1)

/-- Embedding of the `EventHandlers::Async` arm: all handlers launched and
joined; a failure of `try_join_all` is only logged, so only the handlers'
pushes are observable. -/
def runAsync (hs : List MHandler) (msg : TEventImpl) (q : List TEventImpl) :
    List TEventImpl :=
  q ++ (hs.map (fun h => (h msg).1)).flatten

/-- Queue effect of one handler group. -/
def runGroup : EventHandlers → TEventImpl → List TEventImpl → List TEventImpl
  | EventHandlers.Sync hs, msg, q => (runSync hs msg q).1
  | EventHandlers.Async hs, msg, q => runAsync hs msg q

/-- Embedding of `handle_event`: resolve the group for the event's topic
(an unregistered topic returns `NotFound` for this event), run the group,
then pop the next queued event and recurse on it, discarding (logging)
the recursive call's error.  The unbounded recursion of the source is
modeled with explicit `fuel`; at fuel `0` the remaining queue is left
untouched.  Returns the final queue and the error returned by this
invocation. -/
def handle_event (reg : Registry) :
    Nat → TEventImpl → List TEventImpl → List TEventImpl × Option BaseError
  | 0, msg, queue =>
    match lookupTopic reg msg.metadata.topic with
    | none => (queue, some BaseError.notFound)
    | some g =>
      match runGroup g msg queue with
      | [] => ([], none)
      | e :: rest => (e :: rest, none)
  | f + 1, msg, queue =>
    match lookupTopic reg msg.metadata.topic with
    | none => (queue, some BaseError.notFound)
    | some g =>
      match runGroup g msg queue with
      | [] => ([], none)
      | e :: rest => ((handle_event reg f e rest).1, none)

/-- Embedding of `CommandResponseWithEventFutures`: the command result
together with the (optional) joinable background drain, modeled by the
drain's eventual outcome. -/
structure CommandResponseWithEventFutures (R : Type) where
  result : R
  join_handler : Option (List TEventImpl × Option BaseError)

/-- Embedding of `TMessageBus::execute_and_wait`.  `cmdResult` is the
outcome of `command_handler(..).execute()` and `pushed` the events the
command left in the context queue; on success, a non-empty queue has its
front popped and handed to `handle_event`, whose error is propagated with
`?`. -/
def execute_and_wait {R : Type} (reg : Registry) (fuel : Nat)
    (cmdResult : Except BaseError R) (pushed : List TEventImpl) :
    Except BaseError R :=
  match cmdResult with
  | Except.error e => Except.error e
  | Except.ok r =>
    match pushed with
    | [] => Except.ok r
    | e :: rest =>
      match (handle_event reg fuel e rest).2 with
      | some err => Except.error err
      | none => Except.ok r

/-- Embedding of `TMessageBus::execute_and_forget`: on command success the
drain is spawned as a detached task and the result proxy is returned
immediately. -/
def execute_and_forget {R : Type} (reg : Registry) (fuel : Nat)
    (cmdResult : Except BaseError R) (pushed : List TEventImpl) :
    Except BaseError (CommandResponseWithEventFutures R) :=
  match cmdResult with
  | Except.error e => Except.error e
  | Except.ok r =>
    match pushed with
    | [] => Except.ok ⟨r, none⟩
    | e :: rest => Except.ok ⟨r, some (handle_event reg fuel e rest)⟩

/- ### Unit of work (src/event-driven-core/src/unit_of_work.rs) -/

/-- Observable operations performed by `UnitOfWork::commit`: forwarding an
internally-notifiable event to the shared context's sender, writing the
collected outbox records through the `IOutBox` sink with a given executor,
and the underlying `executor.commit()`.  Executors are identified by a
number so that sharing is visible in the trace. -/
inductive UowOp where
  | sendEvent (e : TEventImpl)
  | outboxAdd (executor : Nat) (obs : List OutBox)
  | execCommit (executor : Nat)
deriving DecidableEq

/-- Embedding of the event loop of `UnitOfWork::_commit_hook`: walk the
repository's collected events in order; an `externally_notifiable` event
contributes `e.outbox()` to the local `outboxes` vector (`genId k` is the
fresh id drawn by the `k`-th such conversion, `traceId` the ambient trace
id) and an `internally_notifiable` event is sent to the context's queue
inline.  Returns the accumulated outbox records and the emitted send
operations. -/
def commitHookLoop (genId : Nat → Int) (traceId : String) :
    List TEventImpl → Nat → List OutBox × List UowOp
  | [], _ => ([], [])
  | e :: es, k =>
    let extb := e.externally_notifiable
    let rest := commitHookLoop genId traceId es (if extb then k + 1 else k)
    ((if extb then [e.outbox (genId k) traceId] else []) ++ rest.1,
     (if e.internally_notifiable then [UowOp.sendEvent e] else []) ++ rest.2)

/-- Embedding of `UnitOfWork::_commit_hook`: the loop's sends followed by
the single `O::add(self.executor(), outboxes)` on the unit of work's own
executor. -/
def commit_hook (genId : Nat → Int) (traceId : String)
    (events : List TEventImpl) (executor : Nat) : List UowOp :=
  let r := commitHookLoop genId traceId events 0
  r.2 ++ [UowOp.outboxAdd executor r.1]

/-- Embedding of `UnitOfWork::commit`: run the commit hook, then the
executor's underlying `commit`. -/
def UnitOfWork.commit (genId : Nat → Int) (traceId : String)
    (events : List TEventImpl) (executor : Nat) : List UowOp :=
  commit_hook genId traceId events executor ++ [UowOp.execCommit executor]

/-- Spec-side description of the outbox records the hook should write:
one record per externally-notifiable event, in collection order, each
converted with `TEvent::outbox` and a fresh id. -/
def specOutboxes (genId : Nat → Int) (traceId : String) :
    Nat → List TEventImpl → List OutBox
  | _, [] => []
  | k, e :: es => e.outbox (genId k) traceId :: specOutboxes genId traceId (k + 1) es

/- ### Command handler (src/ruva-core/src/bus_components/handler/command/uow.rs) -/

/-- Operations the unit-of-work dependency performs during
`CommandHandler::execute`. -/
inductive CmdOp where
  | beginOp
  | commitCall
  | rollbackOp
  | closeOp
  | setCurrentEvents (es : List TEventImpl)
  | processInternal
  | processExternal
deriving DecidableEq

/-- Outcomes of the fallible dependency operations (`none` is `Ok`). -/
structure DepBehavior where
  beginR : Option BaseError
  commitR : Option BaseError
  rollbackR : Option BaseError
  processInternalR : Option BaseError
  processExternalR : Option BaseError

/-- Embedding of `CommandHandler::execute` for the unit-of-work-backed
command service: begin, run the handler; on success commit and close; on
failure rollback and close, and when the error converts to
`StopSentinelWithEvent(event)` set the payload as the current events, push
it through the internal-event and the external-event (outbox) processing
paths, and re-surface the stop-with-event error; any other error is
surfaced unchanged.  Returns the trace of dependency operations and the
result. -/
def CommandHandler.execute {R : Type} (dep : DepBehavior)
    (handlerResult : Except BaseError R) : List CmdOp × Except BaseError R :=
  match dep.beginR with
  | some e => ([CmdOp.beginOp], Except.error e)
  | none =>
    match handlerResult with
    | Except.ok v =>
      match dep.commitR with
      | some e => ([CmdOp.beginOp, CmdOp.commitCall], Except.error e)
      | none =>
        ([CmdOp.beginOp, CmdOp.commitCall, CmdOp.closeOp], Except.ok v)
    | Except.error err =>
      match dep.rollbackR with
      | some e => ([CmdOp.beginOp, CmdOp.rollbackOp], Except.error e)
      | none =>
        match err with
        | BaseError.stopSentinelWithEvent event =>
          match dep.processInternalR with
          | some e =>
            ([CmdOp.beginOp, CmdOp.rollbackOp, CmdOp.closeOp,
              CmdOp.setCurrentEvents [event], CmdOp.processInternal],
             Except.error e)
          | none =>
            match dep.processExternalR with
            | some e =>
              ([CmdOp.beginOp, CmdOp.rollbackOp, CmdOp.closeOp,
                CmdOp.setCurrentEvents [event], CmdOp.processInternal,
                CmdOp.processExternal],
               Except.error e)
            | none =>
              ([CmdOp.beginOp, CmdOp.rollbackOp, CmdOp.closeOp,
                CmdOp.setCurrentEvents [event], CmdOp.processInternal,
                CmdOp.processExternal],
               Except.error (BaseError.stopSentinelWithEvent event))
        | _ => ([CmdOp.beginOp, CmdOp.rollbackOp, CmdOp.closeOp], Except.error err)

/- ### Characterizations of the allocator step -/

theorem and_4095_eq_mod (x : Nat) : x &&& 4095 = x % 4096 := by
  have h := Nat.and_pow_two_sub_one_eq_mod x 12
  norm_num at h
  exact h

theorem shiftRight12_eq_div (x : Nat) : x >>> 12 = x / 4096 := by
  rw [Nat.shiftRight_eq_div_pow]

theorem generate_step_fst (dc mach current timestamp raced : Nat) :
    (generate_step dc mach current timestamp raced).1 =
      if current / 4096 = timestamp then
        if (current % 4096 + 1) % 4096 = 0 then raced <<< 12 ||| 0
        else timestamp <<< 12 ||| ((current % 4096 + 1) % 4096)
      else timestamp <<< 12 ||| 0 := by
  unfold generate_step
  simp only [and_4095_eq_mod, shiftRight12_eq_div]
  split_ifs <;> rfl

theorem generate_step_snd (dc mach current timestamp raced : Nat) :
    (generate_step dc mach current timestamp raced).2 =
      if current / 4096 = timestamp then
        if (current % 4096 + 1) % 4096 = 0 then get_snowflake dc mach 0 raced
        else get_snowflake dc mach ((current % 4096 + 1) % 4096) timestamp
      else get_snowflake dc mach 0 timestamp := by
  unfold generate_step
  simp only [and_4095_eq_mod, shiftRight12_eq_div]
  split_ifs <;> rfl

/-- Claim C3: a successful compare-and-swap step of `generate` strictly
increases the packed atomic word `(last_timestamp_ms << 12 | sequence)`
(under the loop's guard that the stored timestamp is not ahead of the wall
clock, and `race_next_milli` returning a strictly later millisecond), and
the packed word determines the `(timestamp, sequence)` pair, so no two
successful calls ever commit the same pair. -/
theorem claim_C3 (dc mach current timestamp raced : Nat)
    (hts : current >>> 12 ≤ timestamp) (hrace : timestamp < raced) :
    current < (generate_step dc mach current timestamp raced).1
  ∧ (∀ ts seq ts2 seq2 : Nat, seq < 4096 → seq2 < 4096 →
      ts <<< 12 ||| seq = ts2 <<< 12 ||| seq2 → ts = ts2 ∧ seq = seq2) := by
  refine ⟨?_, fun ts seq ts2 seq2 h1 h2 heq => pack_inj ts seq ts2 seq2 h1 h2 heq⟩
  rw [shiftRight12_eq_div] at hts
  rw [generate_step_fst]
  split_ifs with hEq hZero
  · rw [shiftLeft12_lor_eq raced 0 (by omega)]
    omega
  · rw [shiftLeft12_lor_eq timestamp _ (by omega)]
    omega
  · rw [shiftLeft12_lor_eq timestamp 0 (by omega)]
    omega

theorem claim_C3_witness :
    0 < (generate_step 1 1 0 0 1).1
  ∧ (∀ ts seq ts2 seq2 : Nat, seq < 4096 → seq2 < 4096 →
      ts <<< 12 ||| seq = ts2 <<< 12 ||| seq2 → ts = ts2 ∧ seq = seq2) :=
  claim_C3 1 1 0 0 1 (by decide) (by decide)

/-- Claim C4: with valid partition ids, a later successful `generate` call
from the same instance returns a strictly greater id than the previous one
(stored word `(ts1 << 12) | seq1`); and when at least one millisecond has
elapsed (`ts1 < timestamp`), the new id is additionally not the previous
id plus one. -/
theorem claim_C4 (dc mach ts1 seq1 timestamp raced : Nat)
    (hdc : dc < 32) (hmach : mach < 32) (hseq : seq1 < 4096)
    (hclock : ts1 ≤ timestamp) (hrace : timestamp < raced) (hbound : raced < 2 ^ 41) :
    get_snowflake dc mach seq1 ts1
      < (generate_step dc mach (ts1 <<< 12 ||| seq1) timestamp raced).2
  ∧ (ts1 < timestamp →
      (generate_step dc mach (ts1 <<< 12 ||| seq1) timestamp raced).2
        ≠ get_snowflake dc mach seq1 ts1 + 1) := by
  rw [generate_step_snd, shiftLeft12_lor_eq ts1 seq1 hseq]
  have hdiv : (4096 * ts1 + seq1) / 4096 = ts1 := by omega
  have hmod : (4096 * ts1 + seq1) % 4096 = seq1 := by omega
  rw [hdiv, hmod]
  rw [get_snowflake_eq_sum dc mach seq1 ts1 hdc hmach hseq]
  split_ifs with hEq hZero
  · rw [get_snowflake_eq_sum dc mach 0 raced hdc hmach (by omega)]
    constructor
    · omega
    · omega
  · rw [get_snowflake_eq_sum dc mach ((seq1 + 1) % 4096) timestamp hdc hmach (by omega)]
    constructor
    · omega
    · omega
  · rw [get_snowflake_eq_sum dc mach 0 timestamp hdc hmach (by omega)]
    constructor
    · omega
    · omega

theorem claim_C4_witness :
    get_snowflake 1 1 7 5 < (generate_step 1 1 (5 <<< 12 ||| 7) 6 7).2
  ∧ (5 < 6 →
      (generate_step 1 1 (5 <<< 12 ||| 7) 6 7).2 ≠ get_snowflake 1 1 7 5 + 1) :=
  claim_C4 1 1 5 7 6 7 (by decide) (by decide) (by decide) (by decide) (by decide)
    (by decide)

/-- Claim C5: `get_snowflake` is exactly `timestamp << 22 | (partition-A
<< 17) | (partition-B << 12) | sequence`; under the field-width
preconditions it equals the positional sum of the four fields, so the id
uniquely determines the fields, and two instances with distinct
`(partition-A, partition-B)` pairs never produce the same id. -/
theorem claim_C5 (dc mach seq ts dc2 mach2 seq2 ts2 : Nat)
    (hts : ts < 2 ^ 41) (hdc : dc < 32) (hmach : mach < 32) (hseq : seq < 4096)
    (hts2 : ts2 < 2 ^ 41) (hdc2 : dc2 < 32) (hmach2 : mach2 < 32)
    (hseq2 : seq2 < 4096) :
    get_snowflake dc mach seq ts = ts <<< 22 ||| dc <<< 17 ||| mach <<< 12 ||| seq
  ∧ get_snowflake dc mach seq ts = ts * 2 ^ 22 + dc * 2 ^ 17 + mach * 2 ^ 12 + seq
  ∧ (get_snowflake dc mach seq ts = get_snowflake dc2 mach2 seq2 ts2 →
      ts = ts2 ∧ dc = dc2 ∧ mach = mach2 ∧ seq = seq2)
  ∧ ((dc, mach) ≠ (dc2, mach2) →
      get_snowflake dc mach seq ts ≠ get_snowflake dc2 mach2 seq2 ts2) := by
  have hsum := get_snowflake_eq_sum dc mach seq ts hdc hmach hseq
  have hsum2 := get_snowflake_eq_sum dc2 mach2 seq2 ts2 hdc2 hmach2 hseq2
  have hinj : get_snowflake dc mach seq ts = get_snowflake dc2 mach2 seq2 ts2 →
      ts = ts2 ∧ dc = dc2 ∧ mach = mach2 ∧ seq = seq2 := by
    intro heq
    rw [hsum, hsum2] at heq
    omega
  refine ⟨rfl, hsum, hinj, fun hne heq => hne ?_⟩
  obtain ⟨-, h2, h3, -⟩ := hinj heq
  rw [h2, h3]

theorem claim_C5_witness :
    get_snowflake 1 2 3 4 = 4 <<< 22 ||| 1 <<< 17 ||| 2 <<< 12 ||| 3
  ∧ get_snowflake 1 2 3 4 = 4 * 2 ^ 22 + 1 * 2 ^ 17 + 2 * 2 ^ 12 + 3
  ∧ (get_snowflake 1 2 3 4 = get_snowflake 5 6 7 8 →
      4 = 8 ∧ 1 = 5 ∧ 2 = 6 ∧ 3 = 7)
  ∧ (((1, 2) : Nat × Nat) ≠ (5, 6) →
      get_snowflake 1 2 3 4 ≠ get_snowflake 5 6 7 8) :=
  claim_C5 1 2 3 4 5 6 7 8 (by decide) (by decide) (by decide) (by decide)
    (by decide) (by decide) (by decide) (by decide)

/- ### Claim C9: SnowFlake serde round trip -/

theorem parse_u64_to_string (n : Nat) (h : n < 2 ^ 64) :
    parse_u64 false (to_string_digits n) = some n := by
  unfold parse_u64
  rw [if_neg (by simp)]
  rw [if_neg (to_string_digits_ne_nil n)]
  rw [if_neg (by rw [to_string_digits_all_lt]; simp)]
  rw [ofDecDigits_to_string_digits n (by omega), if_pos h]

/-- Claim C9 counterexample: the claim asserts that every `SnowFlake` with
a non-negative inner value round-trips through its own serialization, but
`SnowFlake(i64::MAX)` serializes to the decimal string of
`9223372036854775807`, which `visit_u64` rejects because it is not
strictly below `i64::MAX`. -/
theorem claim_C9_counterexample :
    SnowFlake.deserialize (SnowFlake.serialize ⟨9223372036854775807⟩) = none
  ∧ (0 : Int) ≤ 9223372036854775807 := by
  constructor
  · decide
  · decide

/-- Claim C9 (amended): deserializing the serialization of a `SnowFlake`
yields the same value exactly when the inner value is non-negative and
strictly below `i64::MAX = 2 ^ 63 - 1`; a negative inner value fails the
round trip because its decimal string carries a minus sign, which
`parse::<u64>` rejects (and `i64::MAX` itself fails `visit_u64`'s strict
bound, per the counterexample). -/
theorem claim_C9 (v : Int) :
    (0 ≤ v → v < 2 ^ 63 - 1 →
      SnowFlake.deserialize (SnowFlake.serialize ⟨v⟩) = some ⟨v⟩)
  ∧ (v < 0 → SnowFlake.deserialize (SnowFlake.serialize ⟨v⟩) = none) := by
  constructor
  · intro h0 hlt
    have hneg : decide (v < 0) = false := decide_eq_false (by omega)
    show SnowFlake.deserialize
        (SerdeInput.str (decide (v < 0)) (to_string_digits v.natAbs)) = some ⟨v⟩
    rw [hneg]
    simp only [SnowFlake.deserialize]
    rw [parse_u64_to_string v.natAbs (by omega)]
    show visit_u64 v.natAbs = some ⟨v⟩
    unfold visit_u64
    rw [if_pos (by omega)]
    have : ((v.natAbs : Int)) = v := Int.natAbs_of_nonneg h0
    rw [this]
  · intro hv
    have hneg : decide (v < 0) = true := decide_eq_true hv
    show SnowFlake.deserialize
        (SerdeInput.str (decide (v < 0)) (to_string_digits v.natAbs)) = none
    rw [hneg]
    simp [SnowFlake.deserialize, parse_u64]

theorem claim_C9_witness :
    SnowFlake.deserialize (SnowFlake.serialize ⟨5⟩) = some ⟨5⟩
  ∧ SnowFlake.deserialize (SnowFlake.serialize ⟨-3⟩) = none :=
  ⟨(claim_C9 5).1 (by decide) (by decide), (claim_C9 (-3)).2 (by decide)⟩

/- ### Commit-hook characterization -/

theorem commitHookLoop_eq (genId : Nat → Int) (traceId : String)
    (es : List TEventImpl) (k : Nat) :
    commitHookLoop genId traceId es k =
      (specOutboxes genId traceId k (es.filter (fun e => e.externally_notifiable)),
       (es.filter (fun e => e.internally_notifiable)).map UowOp.sendEvent) := by
  induction es generalizing k with
  | nil => rfl
  | cons e es ih =>
    rw [commitHookLoop, ih]
    by_cases hx : e.externally_notifiable <;> by_cases hi : e.internally_notifiable <;>
      simp [hx, hi, List.filter_cons, specOutboxes]

theorem mem_specOutboxes (genId : Nat → Int) (traceId : String) (e : TEventImpl) :
    ∀ (l : List TEventImpl) (k0 : Nat), e ∈ l →
      ∃ k, e.outbox (genId k) traceId ∈ specOutboxes genId traceId k0 l := by
  intro l
  induction l with
  | nil => intro k0 h; cases h
  | cons a l ih =>
    intro k0 h
    rcases List.mem_cons.mp h with rfl | hmem
    · exact ⟨k0, List.mem_cons_self _ _⟩
    · obtain ⟨k, hk⟩ := ih (k0 + 1) hmem
      exact ⟨k, List.mem_cons_of_mem _ hk⟩

/-- Claim C2: `UnitOfWork::commit` performs the commit hook strictly before
the executor's underlying commit; the hook walks the collected events in
order, sending each internally-notifiable event to the shared context and
converting each externally-notifiable event (with a fresh id) into an
outbox record written through the outbox sink on the same shared executor
as the final commit; an event with both flags undergoes both. -/
theorem claim_C2 (genId : Nat → Int) (traceId : String)
    (events : List TEventImpl) (executor : Nat) :
    UnitOfWork.commit genId traceId events executor =
      ((events.filter (fun e => e.internally_notifiable)).map UowOp.sendEvent)
        ++ [UowOp.outboxAdd executor
              (specOutboxes genId traceId 0
                (events.filter (fun e => e.externally_notifiable))),
            UowOp.execCommit executor]
  ∧ (∀ e ∈ events, e.internally_notifiable = true →
      UowOp.sendEvent e ∈ UnitOfWork.commit genId traceId events executor)
  ∧ (∀ e ∈ events, e.externally_notifiable = true →
      ∃ k, e.outbox (genId k) traceId ∈
        specOutboxes genId traceId 0
          (events.filter (fun e => e.externally_notifiable))) := by
  have hmain : UnitOfWork.commit genId traceId events executor =
      ((events.filter (fun e => e.internally_notifiable)).map UowOp.sendEvent)
        ++ [UowOp.outboxAdd executor
              (specOutboxes genId traceId 0
                (events.filter (fun e => e.externally_notifiable))),
            UowOp.execCommit executor] := by
    unfold UnitOfWork.commit commit_hook
    rw [commitHookLoop_eq]
    simp
  refine ⟨hmain, ?_, ?_⟩
  · intro e he hi
    rw [hmain]
    refine List.mem_append_left _ ?_
    exact List.mem_map_of_mem _ (List.mem_filter.mpr ⟨he, by rw [hi]⟩)
  · intro e he hx
    exact mem_specOutboxes genId traceId e _ 0 (List.mem_filter.mpr ⟨he, by rw [hx]⟩)

/-- Concrete event carrying both notifiability flags, for the C2 witness. -/
def demoBoth : TEventImpl :=
  { type_name := "crate::OrderCreated"
    state := "s"
    externally_notifiable := true
    internally_notifiable := true }

/-- Constant id supply for the C2 witness. -/
def demoGen : Nat → Int := fun _ => 7

theorem claim_C2_witness :
    UowOp.sendEvent demoBoth ∈ UnitOfWork.commit demoGen "tr" [demoBoth] 3
  ∧ ∃ k, demoBoth.outbox (demoGen k) "tr" ∈
      specOutboxes demoGen "tr" 0
        ([demoBoth].filter (fun e => e.externally_notifiable)) :=
  ⟨(claim_C2 demoGen "tr" [demoBoth] 3).2.1 demoBoth (by simp) rfl,
   (claim_C2 demoGen "tr" [demoBoth] 3).2.2 demoBoth (by simp) rfl⟩

/-- Claim C8: the provided `TEvent` implementations default both
notifiability flags to `false` and default the metadata to the last
`"::"`-separated segment of the concrete type name as topic with empty
aggregate id and name; consequently an event overriding neither flag
contributes nothing to the commit hook: no outbox record and no forwarded
event. -/
theorem claim_C8 (tn st : String) (genId : Nat → Int) (traceId : String)
    (l1 l2 : List TEventImpl) (k : Nat) :
    (defaultEvent tn st).externally_notifiable = false
  ∧ (defaultEvent tn st).internally_notifiable = false
  ∧ (defaultEvent tn st).metadata =
      { aggregate_id := "", aggregate_name := "", topic := lastSegment tn }
  ∧ lastSegment "ruva::message::OrderCreated" = "OrderCreated"
  ∧ commitHookLoop genId traceId (l1 ++ defaultEvent tn st :: l2) k
      = commitHookLoop genId traceId (l1 ++ l2) k := by
  refine ⟨rfl, rfl, rfl, by decide, ?_⟩
  rw [commitHookLoop_eq, commitHookLoop_eq]
  simp [List.filter_append, List.filter_cons,
    show (defaultEvent tn st).externally_notifiable = false from rfl,
    show (defaultEvent tn st).internally_notifiable = false from rfl]

/-- Claim C10: `OutBox::new` stores the freshly generated allocator id, the
five string arguments unchanged, `processed = false`, and `create_dt`
equal to the `DateTime` default value, i.e. the Unix epoch, rather than
any construction-time clock reading (the constructor reads no clock). -/
theorem claim_C10 (freshId : Int) (a b t s tr : String) :
    (OutBox.new freshId a b t s tr).processed = false
  ∧ (OutBox.new freshId a b t s tr).id = freshId
  ∧ (OutBox.new freshId a b t s tr).aggregate_id = a
  ∧ (OutBox.new freshId a b t s tr).aggregate_name = b
  ∧ (OutBox.new freshId a b t s tr).topic = t
  ∧ (OutBox.new freshId a b t s tr).state = s
  ∧ (OutBox.new freshId a b t s tr).trace_id = tr
  ∧ (OutBox.new freshId a b t s tr).create_dt = dateTimeDefault
  ∧ dateTimeDefault = 0 :=
  ⟨rfl, rfl, rfl, rfl, rfl, rfl, rfl, rfl, rfl⟩

/- ### Dispatcher error containment -/

/-- The error component of `handle_event` is `NotFound` exactly when the
event's own topic is unregistered; handler failures, sentinels, and errors
of deeper cascade events are absorbed (logged) inside. -/
theorem handle_event_snd (reg : Registry) (fuel : Nat) (msg : TEventImpl)
    (queue : List TEventImpl) :
    (handle_event reg fuel msg queue).2 =
      if (lookupTopic reg msg.metadata.topic).isSome then none
      else some BaseError.notFound := by
  cases fuel with
  | zero =>
    cases hl : lookupTopic reg msg.metadata.topic with
    | none => simp [handle_event, hl]
    | some g =>
      cases hq : runGroup g msg queue with
      | nil => simp [handle_event, hl, hq]
      | cons e rest => simp [handle_event, hl, hq]
  | succ f =>
    cases hl : lookupTopic reg msg.metadata.topic with
    | none => simp [handle_event, hl]
    | some g =>
      cases hq : runGroup g msg queue with
      | nil => simp [handle_event, hl, hq]
      | cons e rest => simp [handle_event, hl, hq]

/-- Claim C1 counterexample: after a successful command,
`execute_and_wait` pops the first queued event and propagates
`handle_event`'s error with `?`; when that first event's topic is
unregistered the caller receives `NotFound` instead of the command
handler's success value. -/
theorem claim_C1_counterexample :
    execute_and_wait ([] : Registry) 0 (Except.ok (0 : Nat)) [defaultEvent "T" ""]
      = Except.error BaseError.notFound := by
  rfl

/-- Claim C1 (amended): after a successful command, `execute_and_wait`
returns the command handler's success value unless the first popped
event's topic is unregistered, in which case that single `NotFound`
condition is propagated to the caller; every other event-path outcome
(handler failures, sentinels, unregistered topics of deeper cascade
events) is only logged and never alters the result, and
`execute_and_forget` always returns the command handler's success value.
-/
theorem claim_C1 {R : Type} (reg : Registry) (fuel : Nat) (r : R)
    (pushed : List TEventImpl) :
    execute_and_wait reg fuel (Except.ok r) pushed =
      (match pushed with
       | [] => Except.ok r
       | e :: _ =>
         if (lookupTopic reg e.metadata.topic).isSome then Except.ok r
         else Except.error BaseError.notFound)
  ∧ (execute_and_forget reg fuel (Except.ok r) pushed).map
      CommandResponseWithEventFutures.result = Except.ok r := by
  constructor
  · cases pushed with
    | nil => rfl
    | cons e rest =>
      show (match (handle_event reg fuel e rest).2 with
            | some err => Except.error err
            | none => (Except.ok r : Except BaseError R)) = _
      rw [handle_event_snd]
      cases hl : (lookupTopic reg e.metadata.topic).isSome <;> simp [hl]
  · cases pushed <;> rfl

/- ### Claim C6: command-path failure handling -/

/-- Claim C6: when the command handler fails, `CommandHandler::execute`
rolls the transaction back and closes the scope; a
`StopSentinelWithEvent` error additionally sets its payload as the
current events, pushes it through the internal-event path and then the
external-event (outbox) path, and re-surfaces the stop-with-event error;
any other error kind is surfaced unchanged with no compensating
processing (the dependency operations are assumed to succeed, matching
the claim's happy path for the compensation itself). -/
theorem claim_C6 {R : Type} (dep : DepBehavior) (err : BaseError)
    (hbegin : dep.beginR = none) (hrb : dep.rollbackR = none)
    (hpi : dep.processInternalR = none) (hpe : dep.processExternalR = none) :
    (∀ ev, err = BaseError.stopSentinelWithEvent ev →
      CommandHandler.execute (R := R) dep (Except.error err) =
        ([CmdOp.beginOp, CmdOp.rollbackOp, CmdOp.closeOp,
          CmdOp.setCurrentEvents [ev], CmdOp.processInternal,
          CmdOp.processExternal],
         Except.error (BaseError.stopSentinelWithEvent ev)))
  ∧ ((∀ ev, err ≠ BaseError.stopSentinelWithEvent ev) →
      CommandHandler.execute (R := R) dep (Except.error err) =
        ([CmdOp.beginOp, CmdOp.rollbackOp, CmdOp.closeOp], Except.error err)) := by
  constructor
  · intro ev hev
    subst hev
    unfold CommandHandler.execute
    rw [hbegin, hrb, hpi, hpe]
  · intro hne
    unfold CommandHandler.execute
    rw [hbegin, hrb]
    cases err with
    | stopSentinelWithEvent e => exact absurd rfl (hne e)
    | stopSentinel => rfl
    | notFound => rfl
    | serviceError => rfl
    | databaseError s => rfl

/-- Dependency behavior whose operations all succeed, for the C6 witness. -/
def depOk : DepBehavior :=
  { beginR := none, commitR := none, rollbackR := none
    processInternalR := none, processExternalR := none }

theorem claim_C6_witness :
    CommandHandler.execute (R := Nat) depOk
        (Except.error (BaseError.stopSentinelWithEvent demoBoth)) =
      ([CmdOp.beginOp, CmdOp.rollbackOp, CmdOp.closeOp,
        CmdOp.setCurrentEvents [demoBoth], CmdOp.processInternal,
        CmdOp.processExternal],
       Except.error (BaseError.stopSentinelWithEvent demoBoth))
  ∧ CommandHandler.execute (R := Nat) depOk (Except.error BaseError.serviceError) =
      ([CmdOp.beginOp, CmdOp.rollbackOp, CmdOp.closeOp],
       Except.error BaseError.serviceError) :=
  ⟨(claim_C6 depOk (BaseError.stopSentinelWithEvent demoBoth) rfl rfl rfl rfl).1
      demoBoth rfl,
   (claim_C6 depOk BaseError.serviceError rfl rfl rfl rfl).2
      (fun ev h => BaseError.noConfusion h)⟩

/- ### Claim C7: stop-sentinel semantics in sequential groups -/

/-- A handler outcome that does not halt the sequential loop: `Ok` or an
ordinary (logged) error, as opposed to the two stop sentinels. -/
def notSentinel : Option BaseError → Bool
  | some BaseError.stopSentinel => false
  | some (BaseError.stopSentinelWithEvent _) => false
  | _ => true

theorem runSync_cons_continue (h : MHandler) (t : List MHandler)
    (msg : TEventImpl) (q : List TEventImpl)
    (hns : notSentinel (h msg).2 = true) :
    runSync (h :: t) msg q =
      ((runSync t msg (q ++ (h msg).1)).1,
       (runSync t msg (q ++ (h msg).1)).2 + 1) := by
  cases hr : (h msg).2 with
  | none => simp [runSync, hr]
  | some b =>
    cases b with
    | stopSentinel => simp [notSentinel, hr] at hns
    | stopSentinelWithEvent e => simp [notSentinel, hr] at hns
    | notFound => simp [runSync, hr]
    | serviceError => simp [runSync, hr]
    | databaseError s => simp [runSync, hr]

theorem runSync_stop :
    ∀ (hs : List MHandler) (msg : TEventImpl) (i : Nat) (q : List TEventImpl)
      (hi : i < hs.length),
      (∀ j (hj : j < i),
        notSentinel ((hs.get ⟨j, Nat.lt_trans hj hi⟩) msg).2 = true) →
      ((hs.get ⟨i, hi⟩) msg).2 = some BaseError.stopSentinel →
      runSync hs msg q
        = (q ++ ((hs.take (i + 1)).map (fun h => (h msg).1)).flatten, i + 1) := by
  intro hs msg
  induction hs with
  | nil => intro i q hi _ _; simp at hi
  | cons h t ih =>
    intro i q hi hpre hstop
    cases i with
    | zero =>
      have hstop0 : (h msg).2 = some BaseError.stopSentinel := hstop
      simp [runSync, hstop0]
    | succ i =>
      have hns : notSentinel (h msg).2 = true := hpre 0 (Nat.succ_pos i)
      rw [runSync_cons_continue h t msg q hns]
      have hi2 : i < t.length := Nat.lt_of_succ_lt_succ hi
      have hpre2 : ∀ j (hj : j < i),
          notSentinel ((t.get ⟨j, Nat.lt_trans hj hi2⟩) msg).2 = true :=
        fun j hj => hpre (j + 1) (Nat.succ_lt_succ hj)
      have hstop2 : ((t.get ⟨i, hi2⟩) msg).2 = some BaseError.stopSentinel := hstop
      rw [ih i (q ++ (h msg).1) hi2 hpre2 hstop2]
      simp [List.append_assoc]

theorem runSync_stopWith :
    ∀ (hs : List MHandler) (msg : TEventImpl) (i : Nat) (q : List TEventImpl)
      (hi : i < hs.length),
      (∀ j (hj : j < i),
        notSentinel ((hs.get ⟨j, Nat.lt_trans hj hi⟩) msg).2 = true) →
      ∀ ev, ((hs.get ⟨i, hi⟩) msg).2 = some (BaseError.stopSentinelWithEvent ev) →
      runSync hs msg q
        = (q ++ ((hs.take (i + 1)).map (fun h => (h msg).1)).flatten ++ [ev],
           i + 1) := by
  intro hs msg
  induction hs with
  | nil => intro i q hi _ _ _; simp at hi
  | cons h t ih =>
    intro i q hi hpre ev hstop
    cases i with
    | zero =>
      have hstop0 : (h msg).2 = some (BaseError.stopSentinelWithEvent ev) := hstop
      simp [runSync, hstop0]
    | succ i =>
      have hns : notSentinel (h msg).2 = true := hpre 0 (Nat.succ_pos i)
      rw [runSync_cons_continue h t msg q hns]
      have hi2 : i < t.length := Nat.lt_of_succ_lt_succ hi
      have hpre2 : ∀ j (hj : j < i),
          notSentinel ((t.get ⟨j, Nat.lt_trans hj hi2⟩) msg).2 = true :=
        fun j hj => hpre (j + 1) (Nat.succ_lt_succ hj)
      have hstop2 : ((t.get ⟨i, hi2⟩) msg).2
          = some (BaseError.stopSentinelWithEvent ev) := hstop
      rw [ih i (q ++ (h msg).1) hi2 hpre2 ev hstop2]
      simp [List.append_assoc]

/-- Claim C7: in a sequential handler group whose handlers before index
`i` do not produce a sentinel and whose handler at index `i` returns one,
exactly the handlers up to and including the sentinel-returning one are
invoked (handlers `[0..i)` run to completion, handler `i` runs and halts
the group, handlers after `i` are skipped); the group's pushes up to that
point are kept, a plain stop is not a failure, a stop-with-event
additionally pushes its payload to the back of the shared queue before
halting, and the dispatcher afterwards still pops and processes the next
queued event. -/
theorem claim_C7 (hs : List MHandler) (msg : TEventImpl) (q : List TEventImpl)
    (i : Nat) (hi : i < hs.length)
    (hpre : ∀ j (hj : j < i),
      notSentinel ((hs.get ⟨j, Nat.lt_trans hj hi⟩) msg).2 = true) :
    (((hs.get ⟨i, hi⟩) msg).2 = some BaseError.stopSentinel →
      runSync hs msg q
        = (q ++ ((hs.take (i + 1)).map (fun h => (h msg).1)).flatten, i + 1))
  ∧ (∀ ev, ((hs.get ⟨i, hi⟩) msg).2 = some (BaseError.stopSentinelWithEvent ev) →
      runSync hs msg q
        = (q ++ ((hs.take (i + 1)).map (fun h => (h msg).1)).flatten ++ [ev],
           i + 1))
  ∧ (∀ (reg : Registry) (fuel : Nat) (e : TEventImpl) (rest : List TEventImpl),
      lookupTopic reg msg.metadata.topic = some (EventHandlers.Sync hs) →
      (runSync hs msg q).1 = e :: rest →
      handle_event reg (fuel + 1) msg q = ((handle_event reg fuel e rest).1, none)) := by
  refine ⟨runSync_stop hs msg i q hi hpre,
    fun ev hev => runSync_stopWith hs msg i q hi hpre ev hev,
    ?_⟩
  intro reg fuel e rest hreg hq
  simp [handle_event, runGroup, hreg, hq]

/-- Handler that succeeds without pushing events, for the C7 witness. -/
def demoHandlerOk : MHandler := fun _ => ([], none)

/-- Handler that returns the plain stop sentinel, for the C7 witness. -/
def demoHandlerStop : MHandler := fun _ => ([], some BaseError.stopSentinel)

/-- Two-handler sequential group hitting a stop sentinel at index 1. -/
def demoHandlers : List MHandler := [demoHandlerOk, demoHandlerStop]

theorem claim_C7_witness :
    runSync demoHandlers (defaultEvent "E" "") []
      = ([] ++ ((demoHandlers.take (1 + 1)).map
            (fun h => (h (defaultEvent "E" "")).1)).flatten, 1 + 1) :=
  (claim_C7 demoHandlers (defaultEvent "E" "") [] 1 (by decide)
      (fun j hj => by
        have hj0 : j = 0 := by omega
        subst hj0
        rfl)).1 rfl
